import Mathlib

/-!
Shallow embedding of the scheduling/execution core of the repository
(`ok/task/TaskExecutor.py`, `ok/task/BaseTask.py`), with theorems settling
the spec claims about it.

Wall-clock time is modelled as `ℚ` (Python `time.time()` floats); frames are
opaque (`ℕ`); the GUI event emissions (`communicate.*.emit`) are external
side effects with no influence on the modelled state and are dropped.
-/

/-- Model of a `BaseTask` object's state: the boolean flags, the error
counter, the last-execute timestamp, and the per-task info mapping
(`InfoDict`, modelled as an association list).  The task `id` stands for the
object's identity (`name` in the source). -/
structure MTask where
  id : Nat
  enabled : Bool
  paused : Bool
  running : Bool
  done : Bool
  errorCount : Nat
  lastExecuteTime : ℚ
  info : List (String × String)
  deriving Repr, DecidableEq

/-- `BaseTask.get_status` (BaseTask.py lines 33-42): `running` is tested
first, then `enabled`, then `paused`. -/
def get_status (t : MTask) : String :=
  if t.running then "Running"
  else if t.enabled then
    if t.paused then "Paused" else "In Queue"
  else "Not Started"

/-- The status table exactly as the claim states it: "Not Started" whenever
`enabled=false`, "Running" when `enabled=true ∧ running=true`, and so on.
Written from the spec's words, to be compared with `get_status`. -/
def claimStatus (enabled running paused : Bool) : String :=
  if !enabled then "Not Started"
  else if running then "Running"
  else if paused then "Paused"
  else "In Queue"

/-- `BaseTask.enable` (BaseTask.py lines 44-49): the guard `if not
self._enabled` enables the task and clears its info; unconditionally
`self._done = False` afterwards.  The `communicate.task.emit` call is an
external notification and is dropped. -/
def enable (t : MTask) : MTask :=
  let t1 := if !t.enabled then { t with enabled := true, info := [] } else t
  { t1 with done := false }

/-- The scheduler-state fields a `BaseTask.disable` call can touch, plus the
rest of the executor's per-cycle bookkeeping, to express frame conditions. -/
structure ExecView where
  currentTask : Option Nat
  currentScene : Option Nat
  lastScene : Option Nat
  execPaused : Bool
  pauseStart : ℚ
  pauseEndTime : ℚ
  deriving Repr, DecidableEq

/-- `BaseTask.disable` (BaseTask.py lines 151-154): sets `_enabled = False`
and `self.executor.current_task = None`, unconditionally.  Returns the
updated task together with the updated executor view. -/
def disable (t : MTask) (ex : ExecView) : MTask × ExecView :=
  ({ t with enabled := false }, { ex with currentTask := none })

/-- The executor's pause/deadline bookkeeping used by `sleep`, `pause` and
`start` (TaskExecutor.py lines 23-26, 84-122). -/
structure TimerState where
  paused : Bool
  pauseStart : ℚ
  pauseEndTime : ℚ
  deriving Repr, DecidableEq

/-- The deadline assignment at the top of `TaskExecutor.sleep` (line 91):
`self.pause_end_time = time.time() + timeout`. -/
def sleepSetDeadline (now timeout : ℚ) (s : TimerState) : TimerState :=
  { s with pauseEndTime := now + timeout }

/-- `TaskExecutor.pause` (lines 104-106): sets `paused = True` and records
`pause_start = time.time()`. -/
def pauseAt (now : ℚ) (s : TimerState) : TimerState :=
  { s with paused := true, pauseStart := now }

/-- `TaskExecutor.start` (lines 110-122).  `canRun` abstracts the guard
`any(task.can_run() for task in self.tasks)`; when it holds the method runs
`self.pause_end_time += self.pause_start - time.time()` and clears `paused`. -/
def startAt (canRun : Bool) (now : ℚ) (s : TimerState) : TimerState :=
  if canRun then
    { s with pauseEndTime := s.pauseEndTime + s.pauseStart - now, paused := false }
  else s

/-- The wake test of the `sleep` polling loop (lines 98-101): the sleep may
return normally exactly when the executor is not paused, the frame source
permits capture, and `pause_end_time - now <= 0`. -/
def sleepWakes (shouldCapture : Bool) (now : ℚ) (s : TimerState) : Bool :=
  !s.paused && shouldCapture && decide (s.pauseEndTime - now ≤ 0)

/-- C1: the code shifts the wake deadline the WRONG way on resume.  For every
timer state, pausing at time `p` and resuming via `start` at time `t` moves
`pause_end_time` by `p - t`, i.e. EARLIER by the pause duration `t - p`,
whereas the claim requires it to move later by exactly the pause duration.
Concretely: a sleep issued at time 0 with timeout 10 is paused at time 5
(remaining R = 5) and resumed at time 8 (pause P = 3); the deadline becomes
7, which already lies in the past at the resume instant, so the wake
condition holds immediately and the wait returns after 0 additional
non-paused time instead of the required 5. -/
theorem sleep_resume_shifts_deadline_earlier :
    (∀ (s : TimerState) (t p : ℚ),
      (startAt true t (pauseAt p s)).pauseEndTime = s.pauseEndTime + p - t) ∧
    (startAt true 8 (pauseAt 5 (sleepSetDeadline 0 10 ⟨false, 0, 0⟩))).pauseEndTime = 7 ∧
    sleepWakes true 8 (startAt true 8 (pauseAt 5 (sleepSetDeadline 0 10 ⟨false, 0, 0⟩))) = true := by
  refine ⟨fun s t p => ?_, by norm_num [startAt, pauseAt, sleepSetDeadline], ?_⟩
  · simp [startAt, pauseAt]
  · norm_num [startAt, pauseAt, sleepSetDeadline, sleepWakes]

/-- C8 counterexample: at the flag tuple `enabled=false, running=true`,
`get_status` returns "Running" while the claim's table says "Not Started". -/
theorem status_running_wins_over_disabled :
    get_status ⟨0, false, false, true, false, 0, 0, []⟩ = "Running" ∧
    claimStatus false true false = "Not Started" ∧
    get_status ⟨0, false, false, true, false, 0, 0, []⟩ ≠ claimStatus false true false := by
  refine ⟨rfl, rfl, ?_⟩
  decide

/-- C8 amended: `get_status` is a pure projection of the flag tuple with
`running` taking precedence: it returns "Running" whenever `running=true`
(even if `enabled=false`); "Not Started" when `enabled=false` and
`running=false`; "Paused" when `enabled=true, running=false, paused=true`;
and "In Queue" when `enabled=true, running=false, paused=false`. -/
theorem get_status_projection_amended (t : MTask) :
    (t.running = true → get_status t = "Running") ∧
    (t.enabled = false → t.running = false → get_status t = "Not Started") ∧
    (t.enabled = true → t.running = false → t.paused = true → get_status t = "Paused") ∧
    (t.enabled = true → t.running = false → t.paused = false → get_status t = "In Queue") := by
  refine ⟨fun h => ?_, fun h1 h2 => ?_, fun h1 h2 h3 => ?_, fun h1 h2 h3 => ?_⟩
  · simp [get_status, h]
  · simp [get_status, h1, h2]
  · simp [get_status, h1, h2, h3]
  · simp [get_status, h1, h2, h3]

/-- C8 amended witness: the amended projection evaluated at a concrete
running task. -/
theorem get_status_projection_amended_witness :
    get_status ⟨3, true, false, true, false, 0, 0, []⟩ = "Running" :=
  (get_status_projection_amended ⟨3, true, false, true, false, 0, 0, []⟩).1 rfl

/-- C9: `enable` is idempotent — the second of two consecutive calls changes
nothing, for every starting task state (in particular the info mapping is
not cleared twice and `done` stays false). -/
theorem enable_idempotent (t : MTask) :
    enable (enable t) = enable t := by
  cases t with
  | mk id en pa ru dn ec le info =>
    cases en <;> simp [enable]

/-- C10: `disable` sets the task's `enabled` flag to false and the
executor's `current_task` to none — unconditionally, whatever task (if any)
`current_task` referred to — and modifies no other scheduler field and no
other task field. -/
theorem disable_clears_current_task (t : MTask) (ex : ExecView) :
    (disable t ex).1.enabled = false ∧
    (disable t ex).2.currentTask = none ∧
    (disable t ex).2.currentScene = ex.currentScene ∧
    (disable t ex).2.lastScene = ex.lastScene ∧
    (disable t ex).2.execPaused = ex.execPaused ∧
    (disable t ex).2.pauseStart = ex.pauseStart ∧
    (disable t ex).2.pauseEndTime = ex.pauseEndTime ∧
    (disable t ex).1.running = t.running ∧
    (disable t ex).1.done = t.done ∧
    (disable t ex).1.errorCount = t.errorCount ∧
    (disable t ex).1.info = t.info := by
  simp [disable]

/-- A scene matcher: identity, a "type" tag (the Python class, used by the
`isinstance(scene, scene_type)` filter) and the pure predicate
`detect(frame) -> bool`.  Frames are opaque naturals. -/
structure Scene where
  id : Nat
  stype : Nat
  detect : Nat → Bool

/-- `TaskExecutor.latest_scene` (lines 207-208): `current_scene or
last_scene`. -/
def latest_scene (cur last : Option Scene) : Option Scene :=
  match cur with
  | some c => some c
  | none => last

/-- The test `scene_type is not None and not isinstance(scene, scene_type)`
(line 218), with the class filter modelled as a predicate on `stype`. -/
def filterRejects (filter : Option (Nat → Bool)) (ty : Nat) : Bool :=
  match filter with
  | some f => !f ty
  | none => false

/-- The test `scene != latest_scene` (line 220), negated: true when the
candidate is the scene just re-checked. -/
def isLatest (latest : Option Scene) (sid : Nat) : Bool :=
  match latest with
  | some l => sid == l.id
  | none => false

/-- The fallback scan of `detect_scene` (lines 217-224): walk the catalogue
in registration order; skip scenes failing the `isinstance` filter; skip the
scene equal to `latest_scene`; return the first remaining scene whose
predicate matches.  The second component records, in order, the ids of every
scene whose `detect` predicate was evaluated. -/
def scanScenes (filter : Option (Nat → Bool)) (latest : Option Scene) (frame : Nat) :
    List Scene → Option Scene × List Nat
  | [] => (none, [])
  | s :: rest =>
    if filterRejects filter s.stype then
      scanScenes filter latest frame rest
    else if isLatest latest s.id then
      scanScenes filter latest frame rest
    else if s.detect frame then (some s, [s.id])
    else
      let r := scanScenes filter latest frame rest
      (r.1, s.id :: r.2)

/-- `TaskExecutor.detect_scene` (lines 210-228): first re-check the latest
scene optimistically (unconditionally, before any filtering); on a miss,
fall back to `scanScenes`; when nothing matches, the new `current_scene` is
none.  Returns the new `current_scene` together with the ids of the scenes
whose predicates were evaluated, in evaluation order. -/
def detect_scene (filter : Option (Nat → Bool)) (frame : Nat)
    (cur last : Option Scene) (scenes : List Scene) : Option Scene × List Nat :=
  match latest_scene cur last with
  | some l =>
    if l.detect frame then (some l, [l.id])
    else
      let r := scanScenes filter (some l) frame scenes
      (r.1, l.id :: r.2)
  | none => scanScenes filter none frame scenes

/-- C4: with scenes `[A, B]` registered in that order and `A` the latest
scene: if `A.detect F` holds, `detect_scene` returns `A` having evaluated
only `A`'s predicate (never scanning to `B`); if `A` misses, the fallback
scan skips the just-re-checked `A` and selects `B` exactly when `B.detect F`
holds; and when neither matches, the new `current_scene` is none. -/
theorem scene_tiebreak_optimistic_first_match (F : Nat) (A B : Scene)
    (cur last : Option Scene) (hlat : latest_scene cur last = some A)
    (hne : A.id ≠ B.id) :
    (A.detect F = true → detect_scene none F cur last [A, B] = (some A, [A.id])) ∧
    (A.detect F = false → B.detect F = true →
      detect_scene none F cur last [A, B] = (some B, [A.id, B.id])) ∧
    (A.detect F = false → B.detect F = false →
      detect_scene none F cur last [A, B] = (none, [A.id, B.id])) := by
  have hBA : (B.id == A.id) = false := by
    simp only [beq_eq_false_iff_ne, ne_eq]
    exact fun h => hne h.symm
  refine ⟨fun hA => ?_, fun hA hB => ?_, fun hA hB => ?_⟩
  · simp [detect_scene, hlat, hA]
  · simp [detect_scene, hlat, hA, scanScenes, filterRejects, isLatest, hBA, hB]
  · simp [detect_scene, hlat, hA, scanScenes, filterRejects, isLatest, hBA, hB]

/-- C4 witness: two concrete scenes where the first is latest and matches;
detection returns it after evaluating only its predicate. -/
theorem scene_tiebreak_optimistic_first_match_witness :
    detect_scene none 0 (some ⟨0, 0, fun _ => true⟩) none
      [⟨0, 0, fun _ => true⟩, ⟨1, 0, fun _ => true⟩] = (some ⟨0, 0, fun _ => true⟩, [0]) :=
  (scene_tiebreak_optimistic_first_match 0 ⟨0, 0, fun _ => true⟩ ⟨1, 0, fun _ => true⟩
    (some ⟨0, 0, fun _ => true⟩) none rfl (by decide)).1 rfl

/-- C7 counterexample: with a filter accepting only scene type 1, a latest
scene of type 0 that still matches is returned by the optimistic path even
though it fails the filter. -/
theorem filter_not_applied_on_optimistic_path :
    (detect_scene (some fun ty => ty == 1) 0
      (some ⟨0, 0, fun _ => true⟩) none
      [⟨0, 0, fun _ => true⟩, ⟨1, 1, fun _ => true⟩]).1 = some ⟨0, 0, fun _ => true⟩ ∧
    (fun ty => ty == 1) (0 : Nat) = false :=
  ⟨rfl, rfl⟩

/-- Every scene the fallback scan selects passes the filter. -/
theorem scanScenes_filter_sound (f : Nat → Bool) (latest : Option Scene)
    (frame : Nat) (scenes : List Scene) (s : Scene)
    (h : (scanScenes (some f) latest frame scenes).1 = some s) :
    f s.stype = true := by
  induction scenes with
  | nil => simp [scanScenes] at h
  | cons hd tl ih =>
    rw [scanScenes] at h
    by_cases hf : filterRejects (some f) hd.stype
    · rw [if_pos hf] at h
      exact ih h
    · rw [if_neg hf] at h
      by_cases hl : isLatest latest hd.id
      · rw [if_pos hl] at h
        exact ih h
      · rw [if_neg hl] at h
        by_cases hd2 : hd.detect frame
        · rw [if_pos hd2] at h
          simp only [Option.some.injEq] at h
          subst h
          simpa [filterRejects] using hf
        · rw [if_neg hd2] at h
          exact ih h

/-- C7 amended: the type filter restricts only the fallback scan — any scene
`detect_scene` returns either is the latest scene (optimistic re-check path,
which ignores the filter) or satisfies the filter. -/
theorem filter_restricts_scan_only (f : Nat → Bool) (frame : Nat)
    (cur last : Option Scene) (scenes : List Scene) (s : Scene)
    (h : (detect_scene (some f) frame cur last scenes).1 = some s) :
    latest_scene cur last = some s ∨ f s.stype = true := by
  rw [detect_scene] at h
  cases hl : latest_scene cur last with
  | none =>
    rw [hl] at h
    exact Or.inr (scanScenes_filter_sound f none frame scenes s h)
  | some l =>
    rw [hl] at h
    simp only at h
    by_cases hdet : l.detect frame
    · rw [if_pos hdet] at h
      simp only [Option.some.injEq] at h
      subst h
      exact Or.inl rfl
    · rw [if_neg hdet] at h
      exact Or.inr (scanScenes_filter_sound f (some l) frame scenes s h)

/-- C7 amended witness: a filtered detection whose fallback scan selects the
type-1 scene, which indeed satisfies the filter. -/
theorem filter_restricts_scan_only_witness :
    latest_scene none none = some (⟨1, 1, fun _ => true⟩ : Scene) ∨
    (fun ty => ty == 1) (⟨1, 1, fun _ => true⟩ : Scene).stype = true :=
  filter_restricts_scan_only (fun ty => ty == 1) 0 none none
    [⟨0, 0, fun _ => false⟩, ⟨1, 1, fun _ => true⟩] ⟨1, 1, fun _ => true⟩ rfl

/-- What a task's `run_frame()` hook does when invoked, as observed at the
dispatch boundary of `TaskExecutor.execute`: it returns normally, raises
`TaskDisabledException`, or raises any other exception. -/
inductive RunOutcome
  | normal
  | disabledExc
  | genericExc
  deriving Repr, DecidableEq

/-- The scheduler-external behaviour of the task hooks during one cycle:
what each task's `run_frame` does and how long it takes, keyed by task id. -/
structure CycleEnv where
  outcome : Nat → RunOutcome
  duration : Nat → ℚ

/-- The per-cycle mutable locals of `TaskExecutor.execute` (lines 158-189):
`start` is the frame baseline (the wall-clock instant the cycle's frame was
captured or last re-captured), `now` the current wall-clock instant,
`currentTask` the executor's `current_task`. -/
structure CycleAcc where
  start : ℚ
  now : ℚ
  currentTask : Option Nat
  deriving Repr, DecidableEq

/-- Observable events of a cycle: a task being handed the frame (with the
frame's age at that instant) and a freshness re-acquisition. -/
inductive CycleEvent
  | dispatch (id : Nat) (frameAge : ℚ)
  | reacquire
  deriving Repr, DecidableEq

structure DispatchResult where
  task : MTask
  acc : CycleAcc
  events : List CycleEvent

/-- One iteration of the task loop of `TaskExecutor.execute` (lines
166-189): skip the task when `done or not enabled`; otherwise set
`running`/`current_task`/`last_execute_time`, invoke `run_frame` — catching
`TaskDisabledException` silently and any other exception by incrementing
`error_count` — then clear `running` and `current_task`, and apply the
freshness check: if the elapsed time since the frame baseline exceeds 0.5 s,
re-acquire a frame (modelled as instantaneous) and reset the baseline. -/
def dispatchOne (env : CycleEnv) (acc : CycleAcc) (t : MTask) : DispatchResult :=
  if t.done || !t.enabled then ⟨t, acc, []⟩
  else
    let t1 := { t with running := true, lastExecuteTime := acc.start }
    let t2 := match env.outcome t.id with
      | RunOutcome.genericExc => { t1 with errorCount := t1.errorCount + 1 }
      | _ => t1
    let t3 := { t2 with running := false }
    let now2 := acc.now + env.duration t.id
    if now2 - acc.start > 1/2 then
      ⟨t3, ⟨now2, now2, none⟩,
        [CycleEvent.dispatch t.id (acc.now - acc.start), CycleEvent.reacquire]⟩
    else
      ⟨t3, ⟨acc.start, now2, none⟩, [CycleEvent.dispatch t.id (acc.now - acc.start)]⟩

structure CycleResult where
  tasks : List MTask
  acc : CycleAcc
  events : List CycleEvent

/-- The task loop of one `execute` cycle over the registered task list, in
registration order. -/
def runTasks (env : CycleEnv) (acc : CycleAcc) : List MTask → CycleResult
  | [] => ⟨[], acc, []⟩
  | t :: rest =>
    let d := dispatchOne env acc t
    let r := runTasks env d.acc rest
    ⟨d.task :: r.tasks, r.acc, d.events ++ r.events⟩

/-- The task loop processes a concatenation by processing the first part and
continuing with the second from the resulting accumulator: nothing aborts
the loop. -/
theorem runTasks_append (env : CycleEnv) (acc : CycleAcc) (l1 l2 : List MTask) :
    runTasks env acc (l1 ++ l2) =
      ⟨(runTasks env acc l1).tasks ++ (runTasks env (runTasks env acc l1).acc l2).tasks,
       (runTasks env (runTasks env acc l1).acc l2).acc,
       (runTasks env acc l1).events ++ (runTasks env (runTasks env acc l1).acc l2).events⟩ := by
  induction l1 generalizing acc with
  | nil => simp [runTasks]
  | cons t rest ih => simp [runTasks, ih]

/-- C2: a generic exception from `run_frame` is contained at the per-task
dispatch boundary: the faulting task's `error_count` increments by exactly
1, its `enabled` flag stays true, its `running` flag ends up cleared, and
the cycle dispatches the remaining tasks of the same cycle from the
post-fault accumulator — no task fault stops the scheduler loop. -/
theorem generic_fault_isolated (env : CycleEnv) (acc : CycleAcc)
    (pre post : List MTask) (t : MTask)
    (he : t.enabled = true) (hd : t.done = false)
    (ho : env.outcome t.id = RunOutcome.genericExc) :
    runTasks env acc (pre ++ t :: post) =
      ⟨(runTasks env acc pre).tasks
         ++ (dispatchOne env (runTasks env acc pre).acc t).task
         :: (runTasks env (dispatchOne env (runTasks env acc pre).acc t).acc post).tasks,
       (runTasks env (dispatchOne env (runTasks env acc pre).acc t).acc post).acc,
       (runTasks env acc pre).events
         ++ (dispatchOne env (runTasks env acc pre).acc t).events
         ++ (runTasks env (dispatchOne env (runTasks env acc pre).acc t).acc post).events⟩ ∧
    (dispatchOne env (runTasks env acc pre).acc t).task.errorCount = t.errorCount + 1 ∧
    (dispatchOne env (runTasks env acc pre).acc t).task.enabled = true ∧
    (dispatchOne env (runTasks env acc pre).acc t).task.running = false := by
  refine ⟨?_, ?_, ?_, ?_⟩
  · rw [runTasks_append]
    simp [runTasks]
  · simp [dispatchOne, he, hd, ho]
    split <;> rfl
  · simp [dispatchOne, he, hd, ho]
    split <;> rfl
  · simp [dispatchOne, he, hd, ho]
    split <;> rfl

/-- C2 witness: a one-task cycle whose hook raises a generic exception; the
error counter goes from 0 to 1. -/
theorem generic_fault_isolated_witness :
    (dispatchOne ⟨fun _ => RunOutcome.genericExc, fun _ => 0⟩
      (runTasks ⟨fun _ => RunOutcome.genericExc, fun _ => 0⟩ ⟨0, 0, none⟩ []).acc
      ⟨0, true, false, false, false, 0, 0, []⟩).task.errorCount = 0 + 1 :=
  (generic_fault_isolated ⟨fun _ => RunOutcome.genericExc, fun _ => 0⟩ ⟨0, 0, none⟩
    [] [] ⟨0, true, false, false, false, 0, 0, []⟩ rfl rfl rfl).2.1

/-- One dispatch step keeps the frame-age bookkeeping at or below the 0.5 s
threshold: the accumulator it hands to the rest of the loop always has
`now - start ≤ 1/2`. -/
theorem dispatchOne_acc_fresh (env : CycleEnv) (acc : CycleAcc) (t : MTask)
    (hfresh : acc.now - acc.start ≤ 1/2) :
    (dispatchOne env acc t).acc.now - (dispatchOne env acc t).acc.start ≤ 1/2 := by
  simp only [dispatchOne]
  split
  · exact hfresh
  · split
    · simp
    · rename_i hnot
      simpa using le_of_not_lt hnot

/-- C5: freshness enforcement.  If the cycle's frame is at most 0.5 s old at
the loop head, then every task the cycle dispatches is handed a frame at
most 0.5 s old: whenever the elapsed time since the frame baseline exceeds
0.5 s after a task finishes, the loop re-acquires a frame and resets the
baseline before the next dispatch, so a frame older than the threshold is
never handed to a later task of the cycle. -/
theorem fresh_frame_at_dispatch (env : CycleEnv) (acc : CycleAcc)
    (tasks : List MTask) (hfresh : acc.now - acc.start ≤ 1/2) :
    ∀ i age, CycleEvent.dispatch i age ∈ (runTasks env acc tasks).events →
      age ≤ 1/2 := by
  induction tasks generalizing acc with
  | nil =>
    intro i age h
    simp [runTasks] at h
  | cons t rest ih =>
    intro i age h
    rw [runTasks] at h
    simp only [List.mem_append] at h
    rcases h with h | h
    · simp only [dispatchOne] at h
      split at h
      · simp at h
      · split at h
        · rcases List.mem_cons.mp h with heq | h2
          · cases heq
            exact hfresh
          · simp at h2
        · rcases List.mem_cons.mp h with heq | h2
          · cases heq
            exact hfresh
          · simp at h2
    · exact ih (dispatchOne env acc t).acc (dispatchOne_acc_fresh env acc t hfresh) i age h

/-- C5 witness: a single dispatched task receives the frame at age 0, and
the bound holds there. -/
theorem fresh_frame_at_dispatch_witness :
    CycleEvent.dispatch 7 0 ∈
      (runTasks ⟨fun _ => RunOutcome.normal, fun _ => 0⟩ ⟨0, 0, none⟩
        [⟨7, true, false, false, false, 0, 0, []⟩]).events ∧
    (0 : ℚ) ≤ 1/2 := by
  constructor
  · norm_num [runTasks, dispatchOne]
  · exact fresh_frame_at_dispatch ⟨fun _ => RunOutcome.normal, fun _ => 0⟩ ⟨0, 0, none⟩
      [⟨7, true, false, false, false, 0, 0, []⟩] (by norm_num) 7 0
      (by norm_num [runTasks, dispatchOne])

/-- A possible outcome of one iteration of the `sleep` polling loop
(TaskExecutor.py lines 92-102). -/
inductive SleepAction
  | exitRet
  | raiseDisabled
  | normalRet
  | keepWaiting
  deriving Repr, DecidableEq

/-- The test `self.current_task and not self.current_task.enabled` (line
96), on the enabled flag of the current task (`none` when `current_task` is
unset). -/
def taskDisabledNow : Option Bool → Bool
  | some e => !e
  | none => false

theorem taskDisabledNow_eq (o : Option Bool) :
    taskDisabledNow o = true ↔ o = some false := by
  cases o with
  | none => simp [taskDisabledNow]
  | some e => cases e <;> simp [taskDisabledNow]

/-- The external world as the `sleep` polling loop observes it at tick `k`
(one tick per `time.sleep(0.001)`, i.e. 1 ms): the cancellation flag, the
enabled flag of the current task, the global pause flag and the capture
gate. -/
structure SleepWorld where
  exitSet : Nat → Bool
  currentTaskEnabled : Nat → Option Bool
  paused : Nat → Bool
  shouldCapture : Nat → Bool

/-- One iteration of the `sleep` loop body (lines 92-102), with the three
tests in source order: exit event, task disabled, then the wake condition
`not (paused or not should_capture)` and `pause_end_time - now <= 0`, where
`now` at tick `k` is `startTime + k/1000`. -/
def sleepStep (w : SleepWorld) (deadline startTime : ℚ) (k : Nat) : SleepAction :=
  if w.exitSet k then SleepAction.exitRet
  else if taskDisabledNow (w.currentTaskEnabled k) then SleepAction.raiseDisabled
  else if !w.paused k && w.shouldCapture k &&
      decide (deadline - (startTime + (k : ℚ) / 1000) ≤ 0) then SleepAction.normalRet
  else SleepAction.keepWaiting

/-- The polling loop of `sleep`: poll every 1 ms from tick `k`; `fuel`
bounds the number of iterations inspected.  Returns the tick at which the
loop ends together with how it ends. -/
def sleepRun (w : SleepWorld) (deadline startTime : ℚ) : Nat → Nat → Option (Nat × SleepAction)
  | _, 0 => none
  | k, fuel + 1 =>
    if sleepStep w deadline startTime k = SleepAction.keepWaiting then
      sleepRun w deadline startTime (k + 1) fuel
    else some (k, sleepStep w deadline startTime k)

/-- When the polling loop ends at tick `k` it ends the way the loop body
decides at tick `k`, and never with `keepWaiting`. -/
theorem sleepRun_step (w : SleepWorld) (deadline startTime : ℚ) :
    ∀ (fuel k0 k : Nat) (a : SleepAction),
      sleepRun w deadline startTime k0 fuel = some (k, a) →
      sleepStep w deadline startTime k = a ∧ a ≠ SleepAction.keepWaiting := by
  intro fuel
  induction fuel with
  | zero =>
    intro k0 k a h
    simp [sleepRun] at h
  | succ n ih =>
    intro k0 k a h
    rw [sleepRun] at h
    by_cases hs : sleepStep w deadline startTime k0 = SleepAction.keepWaiting
    · rw [if_pos hs] at h
      exact ih _ _ _ h
    · rw [if_neg hs] at h
      simp only [Option.some.injEq, Prod.mk.injEq] at h
      obtain ⟨hk, ha⟩ := h
      subst hk
      subst ha
      exact ⟨rfl, hs⟩

/-- C6: every termination of the `sleep` polling loop is characterized by
the three conditions in source order at the final 1 ms tick: it returns
immediately exactly when the cancellation flag is set; it raises the
task-disabled signal exactly when the flag is clear and the current task's
enabled flag is false; and it returns normally exactly when neither of the
first two holds, the executor is not paused, the frame source permits
capture, and the absolute wake time has passed. -/
theorem sleep_checks_in_order (w : SleepWorld) (deadline startTime : ℚ)
    (k0 fuel k : Nat) (a : SleepAction)
    (h : sleepRun w deadline startTime k0 fuel = some (k, a)) :
    (a = SleepAction.exitRet ↔ w.exitSet k = true) ∧
    (a = SleepAction.raiseDisabled ↔
      w.exitSet k = false ∧ w.currentTaskEnabled k = some false) ∧
    (a = SleepAction.normalRet ↔
      w.exitSet k = false ∧ w.currentTaskEnabled k ≠ some false ∧
      w.paused k = false ∧ w.shouldCapture k = true ∧
      deadline ≤ startTime + (k : ℚ) / 1000) := by
  obtain ⟨hstep, hne⟩ := sleepRun_step w deadline startTime fuel k0 k a h
  unfold sleepStep at hstep
  by_cases he : w.exitSet k = true
  · rw [if_pos he] at hstep
    subst hstep
    refine ⟨by simp [he], by simp [he], by simp [he]⟩
  · rw [if_neg he] at hstep
    rw [Bool.not_eq_true] at he
    by_cases ht : taskDisabledNow (w.currentTaskEnabled k) = true
    · rw [if_pos ht] at hstep
      subst hstep
      have ht' := taskDisabledNow_eq _ |>.mp ht
      refine ⟨by simp [he], by simp [he, ht'], by simp [ht']⟩
    · rw [if_neg ht] at hstep
      have ht' : w.currentTaskEnabled k ≠ some false := fun hc => ht ((taskDisabledNow_eq _).mpr hc)
      by_cases hw : (!w.paused k && w.shouldCapture k &&
          decide (deadline - (startTime + (k : ℚ) / 1000) ≤ 0)) = true
      · rw [if_pos hw] at hstep
        subst hstep
        simp only [Bool.and_eq_true, Bool.not_eq_true', decide_eq_true_eq] at hw
        obtain ⟨⟨hp, hc⟩, hdl⟩ := hw
        refine ⟨by simp [he], by simp [ht'], ?_⟩
        simp only [true_iff]
        exact ⟨he, ht', hp, hc, by linarith⟩
      · rw [if_neg hw] at hstep
        exact absurd hstep.symm hne

/-- C6 witness: a world whose cancellation flag is set at tick 0; the loop
ends at tick 0 with an immediate return, and the characterization holds. -/
theorem sleep_checks_in_order_witness :
    (SleepAction.exitRet = SleepAction.exitRet ↔
      SleepWorld.exitSet ⟨fun _ => true, fun _ => none, fun _ => false, fun _ => true⟩ 0 = true) ∧
    (SleepAction.exitRet = SleepAction.raiseDisabled ↔
      SleepWorld.exitSet ⟨fun _ => true, fun _ => none, fun _ => false, fun _ => true⟩ 0 = false ∧
      SleepWorld.currentTaskEnabled ⟨fun _ => true, fun _ => none, fun _ => false, fun _ => true⟩ 0 = some false) ∧
    (SleepAction.exitRet = SleepAction.normalRet ↔
      SleepWorld.exitSet ⟨fun _ => true, fun _ => none, fun _ => false, fun _ => true⟩ 0 = false ∧
      SleepWorld.currentTaskEnabled ⟨fun _ => true, fun _ => none, fun _ => false, fun _ => true⟩ 0 ≠ some false ∧
      SleepWorld.paused ⟨fun _ => true, fun _ => none, fun _ => false, fun _ => true⟩ 0 = false ∧
      SleepWorld.shouldCapture ⟨fun _ => true, fun _ => none, fun _ => false, fun _ => true⟩ 0 = true ∧
      (1 : ℚ) ≤ 0 + ((0 : Nat) : ℚ) / 1000) :=
  sleep_checks_in_order ⟨fun _ => true, fun _ => none, fun _ => false, fun _ => true⟩
    1 0 0 1 0 SleepAction.exitRet rfl

/-- Scheduler state for the interleaving of `execute`'s dispatch with
`BaseTask.disable`: the registered tasks, the executor's `current_task`,
and the phase — `some i` while the hook `tasks[i].run_frame()` is executing,
`none` between dispatches. -/
structure SchedState where
  tasks : List MTask
  currentTask : Option Nat
  phase : Option Nat

/-- Small-step semantics of the dispatch loop (TaskExecutor.py lines
166-182) interleaved with `BaseTask.disable` (BaseTask.py lines 151-154):
`startDispatch` models lines 167-171 (an eligible task is marked `running`
and made `current_task`, and its hook starts); `hookDisable` models a
`disable()` call arriving while a hook is executing — it sets the target
task's `enabled := false` and the executor's `current_task := none` and
nothing else, in particular it does NOT clear `running`; `endDispatch`
models lines 181-182 (hook over: clear `current_task` and `running`
unconditionally). -/
inductive SchedStep : SchedState → SchedState → Prop
  | startDispatch (s : SchedState) (i : Nat) (t : MTask)
      (hp : s.phase = none) (ht : s.tasks.get? i = some t)
      (he : t.enabled = true) (hd : t.done = false) :
      SchedStep s ⟨s.tasks.set i { t with running := true }, some t.id, some i⟩
  | hookDisable (s : SchedState) (i j : Nat) (t : MTask)
      (hp : s.phase = some i) (ht : s.tasks.get? j = some t) :
      SchedStep s ⟨s.tasks.set j { t with enabled := false }, none, s.phase⟩
  | endDispatch (s : SchedState) (i : Nat) (t : MTask)
      (hp : s.phase = some i) (ht : s.tasks.get? i = some t) :
      SchedStep s ⟨s.tasks.set i { t with running := false }, none, none⟩

/-- C3 counterexample: the state reached by dispatching the single enabled
task and then calling `disable()` on it while its hook runs — a reachable
state whose task has `running = true` and `enabled = false`, violating the
claimed invariant. -/
theorem running_without_enabled_reachable :
    Relation.ReflTransGen SchedStep
      ⟨[⟨0, true, false, false, false, 0, 0, []⟩], none, none⟩
      ⟨[⟨0, false, false, true, false, 0, 0, []⟩], none, some 0⟩ ∧
    (SchedState.mk [⟨0, false, false, true, false, 0, 0, []⟩] none (some 0)).tasks.map
      MTask.running = [true] ∧
    (SchedState.mk [⟨0, false, false, true, false, 0, 0, []⟩] none (some 0)).tasks.map
      MTask.enabled = [false] := by
  refine ⟨?_, rfl, rfl⟩
  have h1 : SchedStep ⟨[⟨0, true, false, false, false, 0, 0, []⟩], none, none⟩
      ⟨[⟨0, true, false, true, false, 0, 0, []⟩], some 0, some 0⟩ :=
    SchedStep.startDispatch _ 0 ⟨0, true, false, false, false, 0, 0, []⟩ rfl rfl rfl rfl
  have h2 : SchedStep ⟨[⟨0, true, false, true, false, 0, 0, []⟩], some 0, some 0⟩
      ⟨[⟨0, false, false, true, false, 0, 0, []⟩], none, some 0⟩ :=
    SchedStep.hookDisable _ 0 0 ⟨0, true, false, true, false, 0, 0, []⟩ rfl rfl
  exact Relation.ReflTransGen.head h1 (Relation.ReflTransGen.head h2 Relation.ReflTransGen.refl)

/-- The invariant that carries the amended claim: any task observed with
`running = true` is the one whose hook is currently executing. -/
def NoStrayRunning (s : SchedState) : Prop :=
  ∀ j t, s.tasks.get? j = some t → t.running = true → s.phase = some j

theorem schedStep_preserves_noStray (s s' : SchedState) (h : SchedStep s s')
    (hinv : NoStrayRunning s) : NoStrayRunning s' := by
  cases h with
  | startDispatch i t hp ht he hd =>
    intro j u hj hr
    by_cases hij : i = j
    · subst hij
      rfl
    · rw [List.get?_set_ne _ _ hij] at hj
      have hphase := hinv j u hj hr
      rw [hp] at hphase
      exact absurd hphase (by simp)
  | hookDisable i j t hp ht =>
    intro j' u hj hr
    by_cases hjj : j = j'
    · subst hjj
      have hlen : j < s.tasks.length := by
        by_contra hge
        rw [List.get?_eq_none.mpr (Nat.le_of_not_lt hge)] at ht
        exact Option.noConfusion ht
      rw [List.get?_set_eq_of_lt _ hlen] at hj
      obtain rfl := Option.some.inj hj
      exact hinv j t ht (by simpa using hr)
    · rw [List.get?_set_ne _ _ hjj] at hj
      exact hinv j' u hj hr
  | endDispatch i t hp ht =>
    intro j u hj hr
    by_cases hij : i = j
    · subst hij
      have hlen : i < s.tasks.length := by
        by_contra hge
        rw [List.get?_eq_none.mpr (Nat.le_of_not_lt hge)] at ht
        exact Option.noConfusion ht
      rw [List.get?_set_eq_of_lt _ hlen] at hj
      obtain rfl := Option.some.inj hj
      simp at hr
    · rw [List.get?_set_ne _ _ hij] at hj
      have hphase := hinv j u hj hr
      rw [hp] at hphase
      simp only [Option.some.injEq] at hphase
      exact absurd hphase hij

/-- C3 amended: in every state reachable from a quiescent start (no hook
executing, no task `running`), as long as no hook is currently executing,
every registered task has `running = false` — so `running = true` implies
`enabled = true` there.  (While a hook executes, `disable()` transiently
violates the implication, as the counterexample shows; the dispatch
boundary restores it by clearing `running` unconditionally.) -/
theorem running_implies_enabled_outside_hook (s s' : SchedState) (j : Nat) (t : MTask)
    (hph : s.phase = none) (hrun : ∀ u ∈ s.tasks, u.running = false)
    (hreach : Relation.ReflTransGen SchedStep s s') (hq : s'.phase = none)
    (hj : s'.tasks.get? j = some t) :
    t.running = false ∧ (t.running = true → t.enabled = true) := by
  have hinv : NoStrayRunning s' := by
    clear hj hq
    induction hreach with
    | refl =>
      intro j' u hj' hr
      have := hrun u (List.get?_mem hj')
      rw [this] at hr
      exact absurd hr (by simp)
    | tail hsteps hstep ih => exact schedStep_preserves_noStray _ _ hstep ih
  have hnr : t.running = false := by
    by_contra hc
    rw [Bool.not_eq_false] at hc
    have := hinv j t hj hc
    rw [hq] at this
    exact absurd this (by simp)
  refine ⟨hnr, fun hr => ?_⟩
  rw [hnr] at hr
  exact absurd hr (by simp)

/-- C3 amended witness: the quiescent initial state itself, whose only task
is not running. -/
theorem running_implies_enabled_outside_hook_witness :
    MTask.running ⟨0, true, false, false, false, 0, 0, []⟩ = false ∧
    (MTask.running ⟨0, true, false, false, false, 0, 0, []⟩ = true →
      MTask.enabled ⟨0, true, false, false, false, 0, 0, []⟩ = true) :=
  running_implies_enabled_outside_hook
    ⟨[⟨0, true, false, false, false, 0, 0, []⟩], none, none⟩
    ⟨[⟨0, true, false, false, false, 0, 0, []⟩], none, none⟩ 0
    ⟨0, true, false, false, false, 0, 0, []⟩ rfl
    (by intro u hu; simp at hu; rw [hu]) Relation.ReflTransGen.refl rfl rfl
